import Mathlib

/-!
Verification development for the Peekaboo personal data hub core:
quick-filter engine, action staging, cache sync, pull cache/live boundary,
and pipeline validation, shallowly embedded from the TypeScript source.
-/

namespace Peekaboo

/-! ### JS-like field values

Row field maps in the source are `Record<string, unknown>`; the quick-filter
engine only ever treats values as strings (with `String(x)` coercion and
falsy-chaining via `||`) or as arrays (`Array.isArray`, `.length`).
-/

/-- A field value: a string or an array (modelled as an array of strings). -/
inductive JVal where
  | str (s : String)
  | arr (xs : List String)
deriving Repr, DecidableEq

/-- JS truthiness of a field value: empty string is falsy, arrays are truthy. -/
def jTruthy : JVal → Bool
  | .str s => s ≠ ""
  | .arr _ => true

/-- JS `String(v)` coercion: arrays join with commas. -/
def jToString : JVal → String
  | .str s => s
  | .arr xs => String.intercalate "," xs

/-- One unit of fetched data (src/connectors/types.ts `DataRow`). -/
structure DataRow where
  source : String
  source_item_id : String
  type : String
  timestamp : String
  data : List (String × JVal)
deriving Repr, DecidableEq

/-- A single quick-filter rule (filters.ts `QuickFilter`); `enabled` is a
number in the source and is used truthily. -/
structure QuickFilter where
  id : String
  source : String
  type : String
  value : String
  enabled : Nat
deriving Repr, DecidableEq

/-- Whether the character list `s` starts with `pat`. -/
def charsStartWith : List Char → List Char → Bool
  | [], _ => true
  | _ :: _, [] => false
  | a :: as, b :: bs => a == b && charsStartWith as bs

/-- Whether the character list `s` contains `pat` as a contiguous run. -/
def charsContain (pat : List Char) : List Char → Bool
  | [] => charsStartWith pat []
  | c :: rest => charsStartWith pat (c :: rest) || charsContain pat rest

/-- JS `s.includes(pat)`. -/
def strIncludes (s pat : String) : Bool :=
  charsContain pat.data s.data

/-- Property lookup on a field map (`d[k]`, `undefined` when absent). -/
def lookupField (d : List (String × JVal)) (k : String) : Option JVal :=
  (d.find? (fun kv => kv.1 == k)).map (fun kv => kv.2)

/-- JS `String(v || '')` where `v` is a possibly-absent field value. -/
def orEmptyStr (v? : Option JVal) : String :=
  match v? with
  | some v => if jTruthy v then jToString v else ""
  | none => ""

/-- JS `String(d.k1 || d.k2 || '')`: first truthy value wins. -/
def fieldOr (d : List (String × JVal)) (k1 k2 : String) : String :=
  match lookupField d k1 with
  | some v => if jTruthy v then jToString v else orEmptyStr (lookupField d k2)
  | none => orEmptyStr (lookupField d k2)

/-- Row predicate of the quick-filter engine (filters.ts `matchesFilter`).
`dateValue` abstracts JS `new Date(s).getTime()`; `none` models an invalid
date (`NaN`), for which every JS date comparison is false. -/
def matchesFilter (dateValue : String → Option Int) (row : DataRow) (f : QuickFilter) : Bool :=
  if f.type == "time_after" then
    match dateValue row.timestamp, dateValue f.value with
    | some t, some v => v ≤ t
    | _, _ => false
  else if f.type == "from_include" then
    strIncludes (fieldOr row.data "author_email" "author_name").toLower f.value.toLower
  else if f.type == "subject_include" then
    strIncludes (orEmptyStr (lookupField row.data "title")).toLower f.value.toLower
  else if f.type == "exclude_sender" then
    !(strIncludes (fieldOr row.data "author_email" "author_name").toLower f.value.toLower)
  else if f.type == "exclude_keyword" then
    !(strIncludes (orEmptyStr (lookupField row.data "title")).toLower f.value.toLower)
  else if f.type == "has_attachment" then
    match lookupField row.data "attachments" with
    | some (.arr xs) => decide (0 < xs.length)
    | _ => false
  else true

/-- Strip the fields named (lower-cased) in `hideFields` from a row. -/
def hideFun (hideFields : List String) (row : DataRow) : DataRow :=
  { row with data := row.data.filter (fun kv => !(hideFields.contains kv.1.toLower)) }

/-- Apply enabled quick filters to a row list (filters.ts `applyFilters`):
early return when nothing is enabled, then row predicates as a conjunction,
then field hiding. -/
def applyFilters (dateValue : String → Option Int) (rows : List DataRow)
    (filters : List QuickFilter) : List DataRow :=
  let enabledFilters := filters.filter (fun f => f.enabled != 0)
  if enabledFilters.isEmpty then rows else
  let hideFields := (enabledFilters.filter (fun f => f.type == "hide_field")).map
    (fun f => f.value.toLower)
  let rowFilters := enabledFilters.filter (fun f => f.type != "hide_field")
  let result := rowFilters.foldl
    (fun acc f => acc.filter (fun row => matchesFilter dateValue row f)) rows
  if hideFields.isEmpty then result else result.map (hideFun hideFields)

/-- The lower-cased field names hidden by the enabled hide-field rules. -/
def hideList (filters : List QuickFilter) : List String :=
  ((filters.filter (fun f => f.enabled != 0)).filter (fun f => f.type == "hide_field")).map
    (fun f => f.value.toLower)

/-- The row-predicate stage of `applyFilters` in isolation. -/
def applyRowPredicates (dateValue : String → Option Int) (filters : List QuickFilter)
    (rows : List DataRow) : List DataRow :=
  ((filters.filter (fun f => f.enabled != 0)).filter (fun f => f.type != "hide_field")).foldl
    (fun acc f => acc.filter (fun row => matchesFilter dateValue row f)) rows

/-- The field-hiding stage of `applyFilters` in isolation. -/
def applyFieldHiding (filters : List QuickFilter) (rows : List DataRow) : List DataRow :=
  let hideFields := hideList filters
  if hideFields.isEmpty then rows else rows.map (hideFun hideFields)

/-! ### Action staging (src/gui/routes.ts resolve/edit, app API propose)

The staging table is modelled as a list of records; the SQL `UPDATE ...
WHERE action_id = ?` becomes a map over matching records and `SELECT ...
get` becomes `List.find?`. The action payload (a JSON object of the
proposed action) is modelled as a string-keyed association list. -/

/-- One staged write action (`staging` table row). -/
structure StagingRecord where
  action_id : String
  source : String
  action_type : String
  action_data : List (String × String)
  purpose : String
  status : String
  resolved_at : Option String
deriving Repr, DecidableEq

/-- The outcome of a connector `executeAction` call: a normal return
carrying a success flag and message, or a thrown exception. -/
inductive ExecOutcome where
  | returns (success : Bool) (message : String)
  | throws
deriving Repr, DecidableEq

/-- A Source Connector, reduced to its action-execution capability. -/
structure Connector where
  executeAction : String → List (String × String) → ExecOutcome

/-- An audit-ledger event appended by the staging workflow. -/
inductive AuditEvent where
  | actionProposed (actionId source actionType purpose : String)
  | actionApproved (actionId decidedBy : String) (source : Option String)
  | actionRejected (actionId decidedBy : String) (source : Option String)
  | actionCommitted (actionId source result : String)
deriving Repr, DecidableEq

/-- Everything the resolve endpoint produces: the updated staging table,
the audit entries appended, the connector invocations made (action type and
payload of each `executeAction` call), and the JSON response fields. -/
structure ResolveOutcome where
  staging : List StagingRecord
  audit : List AuditEvent
  execCalls : List (String × List (String × String))
  ok : Bool
  status : String
deriving Repr, DecidableEq

/-- SQL `UPDATE staging SET status = ?, resolved_at = ? WHERE action_id = ?`. -/
def setStatusAndResolved (staging : List StagingRecord) (actionId status now : String) :
    List StagingRecord :=
  staging.map (fun r =>
    if r.action_id == actionId then { r with status := status, resolved_at := some now } else r)

/-- SQL `UPDATE staging SET status = ? WHERE action_id = ?`. -/
def setStatus (staging : List StagingRecord) (actionId status : String) : List StagingRecord :=
  staging.map (fun r => if r.action_id == actionId then { r with status := status } else r)

/-- The `(action?.source as string) || null` expression of the resolve
handler: the looked-up source with JS falsiness (empty string becomes null). -/
def resolvedSource (staging : List StagingRecord) (actionId : String) : Option String :=
  match staging.find? (fun r => r.action_id == actionId) with
  | some a => if a.source == "" then none else some a.source
  | none => none

/-- The status of the record with the given id, if present. -/
def getStatus (staging : List StagingRecord) (actionId : String) : Option String :=
  (staging.find? (fun r => r.action_id == actionId)).map (fun r => r.status)

/-- POST /api/staging/:actionId/resolve (src/gui/routes.ts lines 118-156).
The handler reads the record, unconditionally overwrites its status from the
decision, and on approval executes the connector action with the fixed
action type string used by the source, upgrading the status to committed
only when `executeAction` returns without throwing. -/
def resolveAction (registry : String → Option Connector) (staging : List StagingRecord)
    (actionId decision now : String) : ResolveOutcome :=
  let action? := staging.find? (fun r => r.action_id == actionId)
  let actionSource := resolvedSource staging actionId
  let status := if decision == "approve" then "approved" else "rejected"
  let staging1 := setStatusAndResolved staging actionId status now
  if decision == "approve" then
    let audit0 := [AuditEvent.actionApproved actionId "owner" actionSource]
    match action? with
    | none => ⟨staging1, audit0, [], true, status⟩
    | some a =>
      match registry a.source with
      | none => ⟨staging1, audit0, [], true, status⟩
      | some conn =>
        match conn.executeAction "draft_email" a.action_data with
        | .returns success _ =>
          ⟨setStatus staging1 actionId "committed",
           audit0 ++ [AuditEvent.actionCommitted actionId a.source
             (if success then "success" else "failure")],
           [("draft_email", a.action_data)], true, status⟩
        | .throws =>
          ⟨staging1,
           audit0 ++ [AuditEvent.actionCommitted actionId a.source "failure"],
           [("draft_email", a.action_data)], true, status⟩
  else
    ⟨staging1, [AuditEvent.actionRejected actionId "owner" actionSource], [], true, status⟩

/-- The result of the edit endpoint. -/
inductive EditResult where
  | notFound
  | notPending
  | edited (merged : List (String × String))
deriving Repr, DecidableEq

/-- JS object spread merge of the patch over the existing payload:
existing keys keep their position with patched values, new keys append. -/
def mergeData (existing patch : List (String × String)) : List (String × String) :=
  existing.map (fun kv =>
    match patch.find? (fun p => p.1 == kv.1) with
    | some p => (kv.1, p.2)
    | none => kv)
  ++ patch.filter (fun p => (existing.find? (fun kv => kv.1 == p.1)).isNone)

/-- POST /api/staging/:actionId/edit (src/gui/routes.ts lines 171-181):
404 when the action is unknown, a not-pending error without any write when
its status is not pending, otherwise the merged payload is stored. -/
def editAction (staging : List StagingRecord) (actionId : String)
    (patch : List (String × String)) : EditResult × List StagingRecord :=
  match staging.find? (fun r => r.action_id == actionId) with
  | none => (.notFound, staging)
  | some a =>
    if a.status != "pending" then (.notPending, staging)
    else
      let merged := mergeData a.action_data patch
      (.edited merged,
       staging.map (fun r =>
         if r.action_id == actionId then { r with action_data := merged } else r))

/-- POST /propose of the app API: inserts a fresh pending record and logs
the proposal. -/
def proposeAction (staging : List StagingRecord) (actionId source actionType purpose : String)
    (data : List (String × String)) : List StagingRecord × List AuditEvent :=
  (staging ++ [⟨actionId, source, actionType, data, purpose, "pending", none⟩],
   [AuditEvent.actionProposed actionId source actionType purpose])

/-! ### Cache store and sync (src/sync/scheduler.ts)

Wall-clock instants (`Date.now()` and ISO timestamps derived from it) are
modelled as integer milliseconds. The optional encryption of the stored
payload is orthogonal to the claims and is not modelled. -/

/-- Convert a run of decimal digit characters to a number (`parseInt`). -/
def digitsToNat (cs : List Char) : Nat :=
  cs.foldl (fun acc c => acc * 10 + (c.toNat - ('0').toNat)) 0

/-- Match a TTL string against the pattern of one or more digits followed by
a single unit character d, h or m, as the regex in `computeExpiresAt` does. -/
def parseTtl (s : String) : Option (Nat × Char) :=
  match s.data.getLast? with
  | none => none
  | some unit =>
    let digits := s.data.dropLast
    if !digits.isEmpty && digits.all Char.isDigit
        && (unit == 'd' || unit == 'h' || unit == 'm') then
      some (digitsToNat digits, unit)
    else none

/-- scheduler.ts `computeExpiresAt`: expiry instant from a TTL string,
falling back to seven days when the string does not match the pattern. -/
def computeExpiresAt (now : Int) (ttl : String) : Int :=
  match parseTtl ttl with
  | none => now + 7 * 24 * 60 * 60 * 1000
  | some (amount, unit) =>
    let ms : Int :=
      if unit = 'd' then (amount : Int) * 24 * 60 * 60 * 1000
      else if unit = 'h' then (amount : Int) * 60 * 60 * 1000
      else if unit = 'm' then (amount : Int) * 60 * 1000
      else 7 * 24 * 60 * 60 * 1000
    now + ms

/-- The `expires_at` column value chosen by `syncSource`: the TS expression
is `ttl ? computeExpiresAt(ttl) : null`, so an absent or empty (falsy) TTL
yields null. -/
def syncExpiresAt (ttl? : Option String) (now : Int) : Option Int :=
  match ttl? with
  | some t => if t == "" then none else some (computeExpiresAt now t)
  | none => none

/-- One `cached_data` row. -/
structure CachedRow where
  source : String
  source_item_id : String
  type : String
  timestamp : String
  data : List (String × JVal)
  cached_at : Int
  expires_at : Option Int
deriving Repr, DecidableEq

/-- The upsert of `syncSource`: `INSERT ... ON CONFLICT(source,
source_item_id) DO UPDATE SET type, timestamp, data, cached_at, expires_at`. -/
def upsertCachedRow (cache : List CachedRow) (r : CachedRow) : List CachedRow :=
  if cache.any (fun c => c.source == r.source && c.source_item_id == r.source_item_id) then
    cache.map (fun c =>
      if c.source == r.source && c.source_item_id == r.source_item_id then
        { c with type := r.type, timestamp := r.timestamp, data := r.data,
                 cached_at := r.cached_at, expires_at := r.expires_at }
      else c)
  else cache ++ [r]

/-- The cached row a sync run writes for a fetched data row. -/
def toCachedRow (row : DataRow) (ttl? : Option String) (now : Int) : CachedRow :=
  ⟨row.source, row.source_item_id, row.type, row.timestamp, row.data,
   now, syncExpiresAt ttl? now⟩

/-- The cache-table effect of `syncSource`: every fetched row is upserted
with the expiry computed from the configured TTL. -/
def syncStore (cache : List CachedRow) (rows : List DataRow) (ttl? : Option String)
    (now : Int) : List CachedRow :=
  rows.foldl (fun c row => upsertCachedRow c (toCachedRow row ttl? now)) cache

/-- SQL `SELECT * FROM cached_data WHERE source = ? AND source_item_id = ?`. -/
def lookupCache (cache : List CachedRow) (s iid : String) : Option CachedRow :=
  cache.find? (fun c => c.source == s && c.source_item_id == iid)

/-- The `(source, source_item_id)` key of a fetched row. -/
def rowKey (row : DataRow) : String × String :=
  (row.source, row.source_item_id)

/-! ### The pull cache/live boundary (app API POST /pull and operators/pull.ts) -/

/-- The slice of a per-source configuration the pull path reads. -/
structure SourceCfg where
  cacheEnabled : Bool
  boundaryAfter : Option String
deriving Repr, DecidableEq

/-- The `readFromCache` query shared by the app API and the pull operator:
rows of the source (and optional type), within the after boundary, not past
their expiry. SQLite compares the TEXT timestamp with the boundary string. -/
def readCacheRows (cache : List CachedRow) (source : String) (type? : Option String)
    (after? : Option String) (now : Int) : List DataRow :=
  (cache.filter (fun c =>
    c.source == source
    && (match type? with | some t => c.type == t | none => true)
    && (match after? with | some a => decide (a ≤ c.timestamp) | none => true)
    && (match c.expires_at with | some e => decide (now < e) | none => true))).map
    (fun c => ⟨c.source, c.source_item_id, c.type, c.timestamp, c.data⟩)

/-- How the pull path obtained its rows: a 404 because no connector is
registered, or a row list together with the number of live connector
fetches performed. -/
inductive PullRows where
  | notFound
  | ok (rows : List DataRow) (liveFetches : Nat)
deriving Repr, DecidableEq

/-- Row acquisition of the app API POST /pull handler: cache-enabled sources
read only from `cached_data`; cache-disabled sources always fetch live from
the connector (404 when none is registered). `connectorRows?` is the
registered connector's fetch result, when a connector exists. -/
def acquireRows (source : String) (cfg : SourceCfg) (cache : List CachedRow)
    (connectorRows? : Option (List DataRow)) (now : Int) : PullRows :=
  if cfg.cacheEnabled then
    .ok (readCacheRows cache source none cfg.boundaryAfter now) 0
  else
    match connectorRows? with
    | none => .notFound
    | some fetched => .ok fetched 1

/-- Row acquisition of the pull operator (operators/pull.ts `execute`):
the cache-only flag selects the cache read, otherwise the connector is
fetched (an error when none is registered). -/
def pullOperatorRows (cacheOnly : Bool) (source : String) (type? : Option String)
    (cfg : SourceCfg) (cache : List CachedRow) (connectorRows? : Option (List DataRow))
    (now : Int) : Except String (List DataRow × Nat) :=
  if cacheOnly then
    .ok (readCacheRows cache source type? cfg.boundaryAfter now, 0)
  else
    match connectorRows? with
    | none => .error ("No connector registered for source: " ++ source)
    | some fetched => .ok (fetched, 1)

/-! ### Pipeline execution (pipeline/executor.ts `executePipeline`)

Operator behaviour is abstracted behind an `execOp` function; the claims
settled here concern only the validation pass that precedes execution. -/

/-- One operator declaration of a manifest. -/
structure OpDecl where
  type : String
  properties : List (String × String)
deriving Repr, DecidableEq

/-- A parsed policy document. -/
structure Manifest where
  purpose : String
  graph : List String
  operators : List (String × OpDecl)
deriving Repr, DecidableEq

/-- Lookup of a node name in the manifest's operator map. -/
def lookupOp (ops : List (String × OpDecl)) (name : String) : Option OpDecl :=
  (ops.find? (fun p => p.1 == name)).map (fun p => p.2)

/-- The validation loop at the top of `executePipeline`: every graph node
must be declared, and a stage node must be the last element of the graph. -/
def validateGraph (ops : List (String × OpDecl)) : List String → Except String Unit
  | [] => .ok ()
  | n :: rest =>
    match lookupOp ops n with
    | none => .error ("Pipeline error: graph references undeclared operator " ++ n)
    | some d =>
      if d.type == "stage" && !rest.isEmpty then
        .error "Pipeline error: stage operator must be the last node in the graph"
      else validateGraph ops rest

/-- The final row list and the executed `name:type` pairs of a pipeline run. -/
structure PipelineOutcome where
  data : List DataRow
  operatorsApplied : List String
deriving Repr, DecidableEq

/-- The execution loop of `executePipeline`, threading the row stream
through each declared operator in graph order; any operator error aborts
the run. -/
def runGraph (execOp : String → OpDecl → List DataRow → Except String (List DataRow))
    (ops : List (String × OpDecl)) :
    List String → List DataRow → List String → Except String PipelineOutcome
  | [], data, applied => .ok ⟨data, applied⟩
  | n :: rest, data, applied =>
    match lookupOp ops n with
    | none => .error ("Pipeline error: graph references undeclared operator " ++ n)
    | some d =>
      match execOp n d data with
      | .error e => .error e
      | .ok out => runGraph execOp ops rest out (applied ++ [n ++ ":" ++ d.type])

/-- `executePipeline`: validate the whole graph first, then execute it. -/
def executePipeline (execOp : String → OpDecl → List DataRow → Except String (List DataRow))
    (m : Manifest) : Except String PipelineOutcome :=
  match validateGraph m.operators m.graph with
  | .error e => .error e
  | .ok _ => runGraph execOp m.operators m.graph [] []

/-! ### Concrete sample inputs used by witnesses and counterexamples -/

/-- A tiny concrete stand-in for date parsing, used only by witnesses. -/
def dvSample (s : String) : Option Int :=
  if s = "5" then some 5 else if s = "3" then some 3 else none

/-- A concrete row used by witnesses. -/
def rowSample : DataRow :=
  ⟨"gmail", "m1", "email", "t", [("body", .str "secret"), ("title", .str "Q4")]⟩

/-- A concrete enabled hide-field rule used by witnesses. -/
def hideFilterSample : QuickFilter :=
  ⟨"f1", "gmail", "hide_field", "Body", 1⟩

/-- A registry with no connectors. -/
def registryNone : String → Option Connector :=
  fun _ => none

/-- A connector whose action execution throws. -/
def connThrows : Connector :=
  ⟨fun _ _ => .throws⟩

/-- A registry exposing the throwing connector for gmail. -/
def registryThrows : String → Option Connector :=
  fun s => if s == "gmail" then some connThrows else none

/-- A connector whose action execution returns success. -/
def connReturnsTrue : Connector :=
  ⟨fun _ _ => .returns true "ok"⟩

/-- A registry exposing the succeeding connector for gmail. -/
def registryReturns : String → Option Connector :=
  fun s => if s == "gmail" then some connReturnsTrue else none

/-- A staged action still pending review. -/
def pendingRecSample : StagingRecord :=
  ⟨"a1", "gmail", "send_email", [("to", "x")], "p", "pending", none⟩

/-- A staged action already rejected. -/
def rejectedRecSample : StagingRecord :=
  ⟨"a1", "gmail", "draft_email", [("to", "x")], "p", "rejected", none⟩

/-- The staging table after the propose call of the C1 scenario. -/
def stagingScenario1 : List StagingRecord :=
  (proposeAction [] "act1" "gmail" "draft_email" "write a reply" []).1

/-- The staging table after propose and resolve(reject) in the C1 scenario. -/
def stagingScenario2 : List StagingRecord :=
  (resolveAction registryNone stagingScenario1 "act1" "reject" "t1").staging

/-- A concrete fetched row for the sync witnesses. -/
def fetchedRowSample : DataRow :=
  ⟨"gmail", "m1", "email", "2026-01-01", [("title", .str "Q4")]⟩

/-- A concrete manifest whose stage node is not terminal. -/
def mStageSample : Manifest :=
  ⟨"demo", ["a", "b"], [("a", ⟨"stage", []⟩), ("b", ⟨"select", []⟩)]⟩

/-- A trivially succeeding operator interpretation. -/
def execOpOk : String → OpDecl → List DataRow → Except String (List DataRow) :=
  fun _ _ data => .ok data

/-- A trivially failing operator interpretation. -/
def execOpFail : String → OpDecl → List DataRow → Except String (List DataRow) :=
  fun _ _ _ => .error "boom"

/-! ### Helper lemmas -/

/-- Updating status and resolved_at of an existing record makes its looked-up
status the new value. -/
theorem getStatus_setStatusAndResolved (staging : List StagingRecord) (actionId st now : String)
    (h : (staging.find? (fun r => r.action_id == actionId)).isSome) :
    getStatus (setStatusAndResolved staging actionId st now) actionId = some st := by
  induction staging with
  | nil => simp [List.find?] at h
  | cons r rs ih =>
    by_cases hr : (r.action_id == actionId) = true
    · simp [getStatus, setStatusAndResolved, hr, List.find?]
    · have hr' : (r.action_id == actionId) = false := by simpa using hr
      have htail : (rs.find? (fun x => x.action_id == actionId)).isSome := by
        simpa [List.find?, hr'] using h
      have hstep := ih htail
      simpa [getStatus, setStatusAndResolved, List.find?, hr'] using hstep

/-- Updating the status of an existing record makes its looked-up status the
new value. -/
theorem getStatus_setStatus (staging : List StagingRecord) (actionId st : String)
    (h : (staging.find? (fun r => r.action_id == actionId)).isSome) :
    getStatus (setStatus staging actionId st) actionId = some st := by
  induction staging with
  | nil => simp [List.find?] at h
  | cons r rs ih =>
    by_cases hr : (r.action_id == actionId) = true
    · simp [getStatus, setStatus, hr, List.find?]
    · have hr' : (r.action_id == actionId) = false := by simpa using hr
      have htail : (rs.find? (fun x => x.action_id == actionId)).isSome := by
        simpa [List.find?, hr'] using h
      have hstep := ih htail
      simpa [getStatus, setStatus, List.find?, hr'] using hstep

/-- The status update keeps the record present. -/
theorem isSome_find?_setStatusAndResolved (staging : List StagingRecord)
    (actionId st now : String) :
    ((setStatusAndResolved staging actionId st now).find?
        (fun r => r.action_id == actionId)).isSome
      = (staging.find? (fun r => r.action_id == actionId)).isSome := by
  induction staging with
  | nil => simp [setStatusAndResolved]
  | cons r rs ih =>
    by_cases hr : (r.action_id == actionId) = true
    · simp [setStatusAndResolved, hr, List.find?]
    · have hr' : (r.action_id == actionId) = false := by simpa using hr
      simpa [setStatusAndResolved, List.find?, hr'] using ih

/-- Hiding an empty field set leaves a row unchanged. -/
theorem hideFun_nil (r : DataRow) : hideFun [] r = r := by
  simp [hideFun]

/-- The two-stage decomposition of `applyFilters`: the row-predicate pass
followed by the field-hiding pass. -/
theorem applyFilters_eq_stages (dv : String → Option Int) (rows : List DataRow)
    (filters : List QuickFilter) :
    applyFilters dv rows filters = applyFieldHiding filters (applyRowPredicates dv filters rows) := by
  unfold applyFilters applyFieldHiding applyRowPredicates hideList
  by_cases he : (filters.filter (fun f => f.enabled != 0)).isEmpty
  · have h0 : filters.filter (fun f => f.enabled != 0) = [] := by
      simpa [List.isEmpty_iff] using he
    simp [h0]
  · simp [he]

/-- Inside the conflict branch of the upsert, the first row matching the
incoming key is replaced by the incoming row. -/
theorem find?_map_upsert (r : CachedRow) (cache : List CachedRow) :
    cache.any (fun c => c.source == r.source && c.source_item_id == r.source_item_id) = true →
    (cache.map (fun c =>
        if c.source == r.source && c.source_item_id == r.source_item_id then
          { c with type := r.type, timestamp := r.timestamp, data := r.data,
                   cached_at := r.cached_at, expires_at := r.expires_at }
        else c)).find?
      (fun c => c.source == r.source && c.source_item_id == r.source_item_id) = some r := by
  induction cache with
  | nil => intro h; simp at h
  | cons c cs ih =>
    intro hany
    by_cases hc : (c.source == r.source && c.source_item_id == r.source_item_id) = true
    · simp only [List.map_cons, hc, if_true]
      rw [List.find?_cons_of_pos]
      · have hc2 : c.source = r.source ∧ c.source_item_id = r.source_item_id := by
          simpa using hc
        cases r
        cases c
        simp_all
      · simpa using hc
    · have hc' : (c.source == r.source && c.source_item_id == r.source_item_id) = false := by
        simpa using hc
      have htail : cs.any
          (fun x => x.source == r.source && x.source_item_id == r.source_item_id) = true := by
        simpa [List.any_cons, hc'] using hany
      simp only [List.map_cons, hc', Bool.false_eq_true, if_false]
      rw [List.find?_cons_of_neg]
      · exact ih htail
      · simp [hc']

/-- Looking up the key of the row just upserted yields that row. -/
theorem lookupCache_upsert_self (cache : List CachedRow) (r : CachedRow) :
    lookupCache (upsertCachedRow cache r) r.source r.source_item_id = some r := by
  unfold upsertCachedRow lookupCache
  by_cases hany : (cache.any
      (fun c => c.source == r.source && c.source_item_id == r.source_item_id)) = true
  · simp only [hany, if_true]
    exact find?_map_upsert r cache hany
  · have hany' : (cache.any
        (fun c => c.source == r.source && c.source_item_id == r.source_item_id)) = false := by
      simpa using hany
    simp only [hany', Bool.false_eq_true, if_false]
    clear hany
    induction cache with
    | nil => simp [List.find?]
    | cons c cs ih =>
      have hc : (c.source == r.source && c.source_item_id == r.source_item_id) = false := by
        by_contra hcc
        have : (c.source == r.source && c.source_item_id == r.source_item_id) = true := by
          simpa using hcc
        simp [List.any_cons, this] at hany'
      have htail : cs.any
          (fun x => x.source == r.source && x.source_item_id == r.source_item_id) = false := by
        simpa [List.any_cons, hc] using hany'
      rw [List.cons_append, List.find?_cons_of_neg]
      · exact ih htail
      · simp [hc]

/-- Upserting a row does not disturb lookups under a different key. -/
theorem lookupCache_upsert_other (cache : List CachedRow) (r : CachedRow) (s iid : String)
    (hne : ¬ (s = r.source ∧ iid = r.source_item_id)) :
    lookupCache (upsertCachedRow cache r) s iid = lookupCache cache s iid := by
  have hpr : (r.source == s && r.source_item_id == iid) = false := by
    by_contra hcc
    have h2 : r.source = s ∧ r.source_item_id = iid := by simpa using hcc
    exact hne ⟨h2.1.symm, h2.2.symm⟩
  unfold upsertCachedRow lookupCache
  by_cases hany : (cache.any
      (fun c => c.source == r.source && c.source_item_id == r.source_item_id)) = true
  · simp only [hany, if_true]
    clear hany
    induction cache with
    | nil => rfl
    | cons c cs ih =>
      by_cases hc : (c.source == r.source && c.source_item_id == r.source_item_id) = true
      · have hc2 : c.source = r.source ∧ c.source_item_id = r.source_item_id := by
          simpa using hc
        have hpc : (c.source == s && c.source_item_id == iid) = false := by
          rw [hc2.1, hc2.2]
          exact hpr
        simp only [List.map_cons, hc, if_true]
        rw [List.find?_cons_of_neg, List.find?_cons_of_neg]
        · exact ih
        · simp [hpc]
        · simp [hpc]
      · have hc' : (c.source == r.source && c.source_item_id == r.source_item_id) = false := by
          simpa using hc
        simp only [List.map_cons, hc', Bool.false_eq_true, if_false]
        cases hp : (c.source == s && c.source_item_id == iid) with
        | true =>
          rw [List.find?_cons_of_pos, List.find?_cons_of_pos] <;> simp [hp]
        | false =>
          rw [List.find?_cons_of_neg, List.find?_cons_of_neg]
          · exact ih
          · simp [hp]
          · simp [hp]
  · have hany' : (cache.any
        (fun c => c.source == r.source && c.source_item_id == r.source_item_id)) = false := by
      simpa using hany
    simp only [hany', Bool.false_eq_true, if_false]
    clear hany hany'
    induction cache with
    | nil => simp [List.find?, hpr]
    | cons c cs ih =>
      cases hp : (c.source == s && c.source_item_id == iid) with
      | true =>
        rw [List.cons_append, List.find?_cons_of_pos, List.find?_cons_of_pos] <;> simp [hp]
      | false =>
        rw [List.cons_append, List.find?_cons_of_neg, List.find?_cons_of_neg]
        · exact ih
        · simp [hp]
        · simp [hp]

/-- A sync run does not disturb cache entries whose key is not among the
fetched rows. -/
theorem lookupCache_syncStore_other (rows : List DataRow) :
    ∀ (cache : List CachedRow) (ttl? : Option String) (now : Int) (s iid : String),
      (∀ row ∈ rows, ¬ (s = row.source ∧ iid = row.source_item_id)) →
      lookupCache (syncStore cache rows ttl? now) s iid = lookupCache cache s iid := by
  induction rows with
  | nil => intro cache ttl? now s iid _; rfl
  | cons row rest ih =>
    intro cache ttl? now s iid h
    have hstep : syncStore cache (row :: rest) ttl? now
        = syncStore (upsertCachedRow cache (toCachedRow row ttl? now)) rest ttl? now := by
      simp [syncStore, List.foldl_cons]
    rw [hstep]
    rw [ih (upsertCachedRow cache (toCachedRow row ttl? now)) ttl? now s iid
      (fun r hr => h r (List.mem_cons_of_mem _ hr))]
    exact lookupCache_upsert_other cache (toCachedRow row ttl? now) s iid
      (h row (List.mem_cons_self _ _))

/-- After a sync run over rows with pairwise distinct keys, every fetched
row is present in the cache exactly as written by the sync. -/
theorem lookupCache_syncStore_mem (rows : List DataRow) :
    ∀ (cache : List CachedRow) (ttl? : Option String) (now : Int),
      rows.Pairwise (fun a b => rowKey a ≠ rowKey b) →
      ∀ row ∈ rows,
        lookupCache (syncStore cache rows ttl? now) row.source row.source_item_id
          = some (toCachedRow row ttl? now) := by
  induction rows with
  | nil => intro _ _ _ _ row hmem; simp at hmem
  | cons r rest ih =>
    intro cache ttl? now hpw row hmem
    rw [List.pairwise_cons] at hpw
    obtain ⟨hhead, htail⟩ := hpw
    have hstep : syncStore cache (r :: rest) ttl? now
        = syncStore (upsertCachedRow cache (toCachedRow r ttl? now)) rest ttl? now := by
      simp [syncStore, List.foldl_cons]
    rw [hstep]
    rcases List.mem_cons.mp hmem with heq | hmem'
    · subst heq
      rw [lookupCache_syncStore_other rest _ ttl? now row.source row.source_item_id ?hdiff]
      · exact lookupCache_upsert_self cache (toCachedRow row ttl? now)
      case hdiff =>
        rintro r' hr' ⟨h1, h2⟩
        exact hhead r' hr' (by simp [rowKey, h1, h2])
    · exact ih (upsertCachedRow cache (toCachedRow r ttl? now)) ttl? now htail row hmem'

/-- A graph containing a non-terminal stage node fails validation. -/
theorem validateGraph_error_of_misplaced_stage (ops : List (String × OpDecl)) :
    ∀ (graph : List String) (i : Nat) (hi : i + 1 < graph.length) (d : OpDecl),
      lookupOp ops (graph.get ⟨i, Nat.lt_of_succ_lt hi⟩) = some d → d.type = "stage" →
      ∃ e, validateGraph ops graph = .error e := by
  intro graph
  induction graph with
  | nil => intro i hi; simp at hi
  | cons n rest ih =>
    intro i hi d hd hstage
    cases i with
    | zero =>
      have hd0 : lookupOp ops n = some d := hd
      have hrest : rest.isEmpty = false := by
        cases rest with
        | nil => simp at hi
        | cons _ _ => rfl
      refine ⟨"Pipeline error: stage operator must be the last node in the graph", ?_⟩
      unfold validateGraph
      rw [hd0]
      simp [hstage, hrest]
    | succ j =>
      have hj : j + 1 < rest.length := by simpa using hi
      have hd' : lookupOp ops (rest.get ⟨j, Nat.lt_of_succ_lt hj⟩) = some d := by
        simpa using hd
      unfold validateGraph
      cases hlook : lookupOp ops n with
      | none => exact ⟨_, rfl⟩
      | some dh =>
        by_cases hcond : (dh.type == "stage" && !rest.isEmpty) = true
        · simp only [hcond, if_true]
          exact ⟨_, rfl⟩
        · have hcond' : (dh.type == "stage" && !rest.isEmpty) = false := by simpa using hcond
          simp only [hcond', Bool.false_eq_true, if_false]
          exact ih j hj d hd' hstage

/-- A cache holding no rows of the requested source yields an empty cache
read. -/
theorem readCacheRows_empty_of_no_source (source : String) (type? after? : Option String)
    (now : Int) :
    ∀ cache : List CachedRow, (∀ c ∈ cache, c.source ≠ source) →
      readCacheRows cache source type? after? now = [] := by
  intro cache
  induction cache with
  | nil => intro _; rfl
  | cons c cs ih =>
    intro h
    have hc : (c.source == source) = false :=
      beq_eq_false_iff_ne.mpr (h c (List.mem_cons_self _ _))
    have hrest := ih (fun x hx => h x (List.mem_cons_of_mem _ hx))
    unfold readCacheRows at hrest ⊢
    simpa [List.filter_cons, hc] using hrest

/-! ### Claim theorems -/

/-- C7: applying a quick-filter set in which every filter is disabled (in
particular the empty set) to a row list returns the list unchanged. -/
theorem quickfilters_all_disabled_identity (dv : String → Option Int) (rows : List DataRow)
    (filters : List QuickFilter) (h : ∀ f ∈ filters, f.enabled = 0) :
    applyFilters dv rows filters = rows := by
  have henab : filters.filter (fun f => f.enabled != 0) = [] := by
    apply List.filter_eq_nil_iff.mpr
    intro f hf
    simp [h f hf]
  simp [applyFilters, henab]

/-- Witness for C7 at a concrete input. -/
theorem quickfilters_all_disabled_identity_witness :
    (∀ f ∈ [(⟨"f1", "gmail", "subject_include", "Q4", 0⟩ : QuickFilter)], f.enabled = 0) ∧
    applyFilters (fun _ => none)
      [⟨"gmail", "m1", "email", "2026-01-01", [("title", .str "Q4 Report")]⟩]
      [⟨"f1", "gmail", "subject_include", "Q4", 0⟩]
      = [⟨"gmail", "m1", "email", "2026-01-01", [("title", .str "Q4 Report")]⟩] := by
  refine ⟨by decide, ?_⟩
  exact quickfilters_all_disabled_identity (fun _ => none) _ _ (by decide)

/-- C8: a row survives an enabled time-after filter with value `v` exactly
when its timestamp, compared as a date, is at least `v`. -/
theorem quickfilter_time_after_survival (dv : String → Option Int) (row : DataRow)
    (i s v : String) (t w : Int) (ht : dv row.timestamp = some t) (hv : dv v = some w) :
    (applyFilters dv [row] [⟨i, s, "time_after", v, 1⟩] = [row] ↔ w ≤ t) ∧
    (applyFilters dv [row] [⟨i, s, "time_after", v, 1⟩] = [] ↔ ¬ w ≤ t) := by
  by_cases hwt : w ≤ t
  · simp [applyFilters, matchesFilter, ht, hv, hwt]
  · simp [applyFilters, matchesFilter, ht, hv, hwt]

/-- Witness for C8 at a concrete input. -/
theorem quickfilter_time_after_survival_witness :
    (dvSample "5" = some 5 ∧ dvSample "3" = some 3) ∧
    ((applyFilters dvSample
        [⟨"gmail", "m1", "email", "5", []⟩] [⟨"f1", "gmail", "time_after", "3", 1⟩]
        = [⟨"gmail", "m1", "email", "5", []⟩] ↔ (3 : Int) ≤ 5) ∧
     (applyFilters dvSample
        [⟨"gmail", "m1", "email", "5", []⟩] [⟨"f1", "gmail", "time_after", "3", 1⟩]
        = [] ↔ ¬ (3 : Int) ≤ 5)) := by
  refine ⟨⟨by decide, by decide⟩, ?_⟩
  exact quickfilter_time_after_survival dvSample
    ⟨"gmail", "m1", "email", "5", []⟩ "f1" "gmail" "3" 5 3 (by decide) (by decide)

/-- C9: when every enabled filter is a hide-field rule, no row is removed:
the output is the input row list with exactly the named fields (matched
case-insensitively) stripped from each row's field map, everything else
unchanged, and the filter pass factors as row predicates first, field
hiding last. -/
theorem quickfilters_hide_field_frame (dv : String → Option Int) (rows : List DataRow)
    (filters : List QuickFilter)
    (h : ∀ f ∈ filters, f.enabled ≠ 0 → f.type = "hide_field") :
    applyFilters dv rows filters = rows.map (hideFun (hideList filters)) ∧
    (applyFilters dv rows filters).length = rows.length ∧
    applyFilters dv rows filters = applyFieldHiding filters (applyRowPredicates dv filters rows) := by
  have hrow : (filters.filter (fun f => f.enabled != 0)).filter
      (fun f => f.type != "hide_field") = [] := by
    apply List.filter_eq_nil_iff.mpr
    intro f hf
    have hmem := List.mem_filter.mp hf
    have henv : f.enabled ≠ 0 := by simpa using hmem.2
    simp [h f hmem.1 henv]
  have hpred : applyRowPredicates dv filters rows = rows := by
    simp [applyRowPredicates, hrow]
  have hmain : applyFilters dv rows filters = rows.map (hideFun (hideList filters)) := by
    rw [applyFilters_eq_stages, hpred]
    unfold applyFieldHiding
    by_cases hh : (hideList filters).isEmpty
    · have h0 : hideList filters = [] := by simpa [List.isEmpty_iff] using hh
      have hmapid : List.map (hideFun []) rows = rows := by
        have hfn : hideFun [] = fun r => r := funext hideFun_nil
        rw [hfn, List.map_id']
      simp [hh, h0, hmapid]
    · simp [hh]
  refine ⟨hmain, ?_, ?_⟩
  · rw [hmain]; simp
  · rw [applyFilters_eq_stages]

/-- Witness for C9 at a concrete input. -/
theorem quickfilters_hide_field_frame_witness :
    (∀ f ∈ [hideFilterSample], f.enabled ≠ 0 → f.type = "hide_field") ∧
    (applyFilters (fun _ => none) [rowSample] [hideFilterSample]
      = [rowSample].map (hideFun (hideList [hideFilterSample])) ∧
     (applyFilters (fun _ => none) [rowSample] [hideFilterSample]).length
      = [rowSample].length ∧
     applyFilters (fun _ => none) [rowSample] [hideFilterSample]
      = applyFieldHiding [hideFilterSample]
          (applyRowPredicates (fun _ => none) [hideFilterSample] [rowSample])) := by
  refine ⟨by decide, ?_⟩
  exact quickfilters_hide_field_frame (fun _ => none) _ _ (by decide)

/-- C1 counterexample: after propose and resolve(reject) the action is
rejected, yet a later resolve(approve) on the same id does not fail — it
reports ok and overwrites the status to approved, because the resolve
handler never checks that the action is still pending. -/
theorem staging_resolve_after_reject_counterexample :
    getStatus stagingScenario2 "act1" = some "rejected" ∧
    (resolveAction registryNone stagingScenario2 "act1" "approve" "t2").ok = true ∧
    getStatus (resolveAction registryNone stagingScenario2 "act1" "approve" "t2").staging "act1"
      = some "approved" := by
  refine ⟨by decide, by decide, by decide⟩

/-- C1 amended: for a committed or rejected action, an edit call fails with
the not-pending error and leaves the table untouched, but a resolve call
performs no pending check: it reports ok, resolve(reject) overwrites the
status to rejected, and resolve(approve) overwrites it to approved (when no
connector is registered for the source). -/
theorem staging_terminal_edit_blocked_resolve_unchecked
    (staging : List StagingRecord) (actionId now decision : String)
    (patch : List (String × String)) (registry : String → Option Connector)
    (a : StagingRecord)
    (hfind : staging.find? (fun r => r.action_id == actionId) = some a)
    (hst : a.status = "committed" ∨ a.status = "rejected") :
    editAction staging actionId patch = (.notPending, staging) ∧
    (resolveAction registry staging actionId decision now).ok = true ∧
    getStatus (resolveAction registry staging actionId "reject" now).staging actionId
      = some "rejected" ∧
    (registry a.source = none →
      getStatus (resolveAction registry staging actionId "approve" now).staging actionId
        = some "approved") := by
  have hsome : (staging.find? (fun r => r.action_id == actionId)).isSome := by
    rw [hfind]; rfl
  have hnp : (a.status != "pending") = true := by
    rcases hst with h | h <;> simp [h]
  refine ⟨?_, ?_, ?_, ?_⟩
  · unfold editAction
    rw [hfind]
    simp [hnp]
  · unfold resolveAction
    by_cases hd : (decision == "approve") = true
    · rw [hfind]
      simp only [hd, if_true]
      cases hreg : registry a.source with
      | none => simp [hreg]
      | some conn =>
        cases hexec : conn.executeAction "draft_email" a.action_data with
        | returns b msg => simp [hreg, hexec]
        | throws => simp [hreg, hexec]
    · have hd' : (decision == "approve") = false := by simpa using hd
      simp [hd']
  · unfold resolveAction
    simp only [show (("reject" : String) == "approve") = false from rfl, Bool.false_eq_true,
      if_false]
    exact getStatus_setStatusAndResolved staging actionId "rejected" now hsome
  · intro hreg
    unfold resolveAction
    rw [hfind]
    simp only [show (("approve" : String) == "approve") = true from rfl, if_true, hreg]
    exact getStatus_setStatusAndResolved staging actionId "approved" now hsome

/-- Witness for the amended C1 at a concrete input. -/
theorem staging_terminal_edit_blocked_resolve_unchecked_witness :
    ([rejectedRecSample].find? (fun r => r.action_id == "a1") = some rejectedRecSample ∧
     (rejectedRecSample.status = "committed" ∨ rejectedRecSample.status = "rejected")) ∧
    (editAction [rejectedRecSample] "a1" [] = (.notPending, [rejectedRecSample]) ∧
     (resolveAction registryNone [rejectedRecSample] "a1" "approve" "t").ok = true ∧
     getStatus (resolveAction registryNone [rejectedRecSample] "a1" "reject" "t").staging "a1"
       = some "rejected" ∧
     (registryNone rejectedRecSample.source = none →
       getStatus (resolveAction registryNone [rejectedRecSample] "a1" "approve" "t").staging "a1"
         = some "approved")) :=
  ⟨⟨by decide, Or.inr (by decide)⟩,
   staging_terminal_edit_blocked_resolve_unchecked [rejectedRecSample] "a1" "t" "approve" []
     registryNone rejectedRecSample (by decide) (Or.inr (by decide))⟩

/-- C2 counterexample: approving a pending action whose connector throws
leaves the record approved, not committed, because the commit update is
skipped in the catch path. -/
theorem staging_approve_throw_counterexample :
    getStatus (resolveAction registryThrows [pendingRecSample] "a1" "approve" "t").staging "a1"
      = some "approved" ∧
    getStatus (resolveAction registryThrows [pendingRecSample] "a1" "approve" "t").staging "a1"
      ≠ some "committed" := by
  refine ⟨by decide, by decide⟩

/-- C2 amended: approving a pending action sets its status to committed
whenever the connector's action execution returns, regardless of the
reported success flag, which lands only in the audit detail; but when the
execution throws, or no connector is registered, the status remains
approved. -/
theorem staging_approve_commit_semantics
    (staging : List StagingRecord) (actionId now : String)
    (registry : String → Option Connector) (a : StagingRecord)
    (hfind : staging.find? (fun r => r.action_id == actionId) = some a)
    (_hpending : a.status = "pending") :
    (∀ conn b msg, registry a.source = some conn →
       conn.executeAction "draft_email" a.action_data = .returns b msg →
       getStatus (resolveAction registry staging actionId "approve" now).staging actionId
         = some "committed" ∧
       (resolveAction registry staging actionId "approve" now).audit
         = [AuditEvent.actionApproved actionId "owner" (resolvedSource staging actionId),
            AuditEvent.actionCommitted actionId a.source
              (if b then "success" else "failure")]) ∧
    (∀ conn, registry a.source = some conn →
       conn.executeAction "draft_email" a.action_data = .throws →
       getStatus (resolveAction registry staging actionId "approve" now).staging actionId
         = some "approved" ∧
       (resolveAction registry staging actionId "approve" now).audit
         = [AuditEvent.actionApproved actionId "owner" (resolvedSource staging actionId),
            AuditEvent.actionCommitted actionId a.source "failure"]) ∧
    (registry a.source = none →
       getStatus (resolveAction registry staging actionId "approve" now).staging actionId
         = some "approved" ∧
       (resolveAction registry staging actionId "approve" now).audit
         = [AuditEvent.actionApproved actionId "owner" (resolvedSource staging actionId)]) := by
  have hsome : (staging.find? (fun r => r.action_id == actionId)).isSome := by
    rw [hfind]; rfl
  have hsome1 : ((setStatusAndResolved staging actionId "approved" now).find?
      (fun r => r.action_id == actionId)).isSome := by
    rw [isSome_find?_setStatusAndResolved]; exact hsome
  refine ⟨?_, ?_, ?_⟩
  · intro conn b msg hreg hexec
    unfold resolveAction
    rw [hfind]
    simp only [show (("approve" : String) == "approve") = true from rfl, if_true, hreg, hexec]
    exact ⟨getStatus_setStatus _ actionId "committed" hsome1, by trivial⟩
  · intro conn hreg hexec
    unfold resolveAction
    rw [hfind]
    simp only [show (("approve" : String) == "approve") = true from rfl, if_true, hreg, hexec]
    exact ⟨getStatus_setStatusAndResolved staging actionId "approved" now hsome, by trivial⟩
  · intro hreg
    unfold resolveAction
    rw [hfind]
    simp only [show (("approve" : String) == "approve") = true from rfl, if_true, hreg]
    exact ⟨getStatus_setStatusAndResolved staging actionId "approved" now hsome, by trivial⟩

/-- Witness for the amended C2 at a concrete input. -/
theorem staging_approve_commit_semantics_witness :
    ([pendingRecSample].find? (fun r => r.action_id == "a1") = some pendingRecSample ∧
     pendingRecSample.status = "pending") ∧
    ((∀ conn b msg, registryReturns pendingRecSample.source = some conn →
        conn.executeAction "draft_email" pendingRecSample.action_data = .returns b msg →
        getStatus (resolveAction registryReturns [pendingRecSample] "a1" "approve" "t").staging
            "a1" = some "committed" ∧
        (resolveAction registryReturns [pendingRecSample] "a1" "approve" "t").audit
          = [AuditEvent.actionApproved "a1" "owner" (resolvedSource [pendingRecSample] "a1"),
             AuditEvent.actionCommitted "a1" pendingRecSample.source
               (if b then "success" else "failure")]) ∧
     (∀ conn, registryReturns pendingRecSample.source = some conn →
        conn.executeAction "draft_email" pendingRecSample.action_data = .throws →
        getStatus (resolveAction registryReturns [pendingRecSample] "a1" "approve" "t").staging
            "a1" = some "approved" ∧
        (resolveAction registryReturns [pendingRecSample] "a1" "approve" "t").audit
          = [AuditEvent.actionApproved "a1" "owner" (resolvedSource [pendingRecSample] "a1"),
             AuditEvent.actionCommitted "a1" pendingRecSample.source "failure"]) ∧
     (registryReturns pendingRecSample.source = none →
        getStatus (resolveAction registryReturns [pendingRecSample] "a1" "approve" "t").staging
            "a1" = some "approved" ∧
        (resolveAction registryReturns [pendingRecSample] "a1" "approve" "t").audit
          = [AuditEvent.actionApproved "a1" "owner" (resolvedSource [pendingRecSample] "a1")])) :=
  ⟨⟨by decide, by decide⟩,
   staging_approve_commit_semantics [pendingRecSample] "a1" "t" registryReturns pendingRecSample
     (by decide) (by decide)⟩

/-- C3 counterexample: the approved action records action type send_email,
yet the connector is invoked with the hard-coded action type draft_email. -/
theorem staging_execute_hardcoded_type_counterexample :
    (resolveAction registryReturns [pendingRecSample] "a1" "approve" "t").execCalls
      = [("draft_email", [("to", "x")])] ∧
    pendingRecSample.action_type = "send_email" ∧
    ("draft_email" : String) ≠ "send_email" := by
  refine ⟨by decide, by decide, by decide⟩

/-- C3 amended: approving a pending action whose source has a registered
connector invokes the connector exactly once, with the fixed action type
draft_email and the action's recorded payload. -/
theorem staging_execute_draft_email_with_recorded_data
    (staging : List StagingRecord) (actionId now : String)
    (registry : String → Option Connector) (a : StagingRecord) (conn : Connector)
    (hfind : staging.find? (fun r => r.action_id == actionId) = some a)
    (_hpending : a.status = "pending")
    (hconn : registry a.source = some conn) :
    (resolveAction registry staging actionId "approve" now).execCalls
      = [("draft_email", a.action_data)] := by
  unfold resolveAction
  rw [hfind]
  simp only [show (("approve" : String) == "approve") = true from rfl, if_true, hconn]
  cases hexec : conn.executeAction "draft_email" a.action_data <;> simp [hexec]

/-- Witness for the amended C3 at a concrete input. -/
theorem staging_execute_draft_email_with_recorded_data_witness :
    ([pendingRecSample].find? (fun r => r.action_id == "a1") = some pendingRecSample ∧
     pendingRecSample.status = "pending" ∧
     registryReturns pendingRecSample.source = some connReturnsTrue) ∧
    (resolveAction registryReturns [pendingRecSample] "a1" "approve" "t").execCalls
      = [("draft_email", pendingRecSample.action_data)] :=
  ⟨⟨by decide, by decide, rfl⟩,
   staging_execute_draft_email_with_recorded_data [pendingRecSample] "a1" "t" registryReturns
     pendingRecSample connReturnsTrue (by decide) (by decide) rfl⟩

/-- C10: any decision other than the exact string approve rejects the
action: its status becomes rejected, a single rejection audit entry is
logged, no connector is invoked, and the response is ok with status
rejected — there is no error path for unrecognized decisions. -/
theorem staging_resolve_non_approve_rejects
    (registry : String → Option Connector) (staging : List StagingRecord)
    (actionId now decision : String)
    (hne : decision ≠ "approve")
    (hfind : (staging.find? (fun r => r.action_id == actionId)).isSome) :
    getStatus (resolveAction registry staging actionId decision now).staging actionId
      = some "rejected" ∧
    (resolveAction registry staging actionId decision now).audit
      = [AuditEvent.actionRejected actionId "owner" (resolvedSource staging actionId)] ∧
    (resolveAction registry staging actionId decision now).execCalls = [] ∧
    (resolveAction registry staging actionId decision now).ok = true ∧
    (resolveAction registry staging actionId decision now).status = "rejected" := by
  have hd : (decision == "approve") = false := beq_eq_false_iff_ne.mpr hne
  unfold resolveAction
  simp only [hd, Bool.false_eq_true, if_false]
  refine ⟨getStatus_setStatusAndResolved staging actionId "rejected" now hfind, ?_, ?_, ?_, ?_⟩
    <;> trivial

/-- Witness for C10 at a concrete input. -/
theorem staging_resolve_non_approve_rejects_witness :
    (("Approve" : String) ≠ "approve" ∧
     ([pendingRecSample].find? (fun r => r.action_id == "a1")).isSome) ∧
    (getStatus (resolveAction registryNone [pendingRecSample] "a1" "Approve" "t").staging "a1"
       = some "rejected" ∧
     (resolveAction registryNone [pendingRecSample] "a1" "Approve" "t").audit
       = [AuditEvent.actionRejected "a1" "owner" (resolvedSource [pendingRecSample] "a1")] ∧
     (resolveAction registryNone [pendingRecSample] "a1" "Approve" "t").execCalls = [] ∧
     (resolveAction registryNone [pendingRecSample] "a1" "Approve" "t").ok = true ∧
     (resolveAction registryNone [pendingRecSample] "a1" "Approve" "t").status = "rejected") :=
  ⟨⟨by decide, by decide⟩,
   staging_resolve_non_approve_rejects registryNone [pendingRecSample] "a1" "t" "Approve"
     (by decide) (by decide)⟩

/-- C4 counterexample: a sync over a source with no configured TTL stores
the row with a null expiry, not the seven-day default the claim asserts for
an absent TTL. -/
theorem sync_absent_ttl_counterexample :
    (lookupCache (syncStore [] [fetchedRowSample] none 0) "gmail" "m1").map
        (fun c => c.expires_at) = some none ∧
    some (none : Option Int) ≠ some (some ((0 : Int) + 604800000)) := by
  exact ⟨by decide, by decide⟩

/-- C4 amended: every fetched row is upserted into the cache with the
expiry computed from the TTL string; a malformed non-empty TTL falls back
to seven days from the sync instant, the d, h and m units scale as days,
hours and minutes, but an absent (or empty) TTL yields a null expiry. -/
theorem sync_upserts_rows_with_ttl_expiry
    (cache : List CachedRow) (rows : List DataRow) (ttl? : Option String) (now : Int)
    (hkeys : rows.Pairwise (fun a b => rowKey a ≠ rowKey b)) :
    (∀ row ∈ rows,
       lookupCache (syncStore cache rows ttl? now) row.source row.source_item_id
         = some (toCachedRow row ttl? now)) ∧
    (∀ t, t ≠ "" → parseTtl t = none →
       syncExpiresAt (some t) now = some (now + 604800000)) ∧
    syncExpiresAt none now = none ∧
    syncExpiresAt (some "7d") now = some (now + 604800000) ∧
    syncExpiresAt (some "1h") now = some (now + 3600000) ∧
    syncExpiresAt (some "10m") now = some (now + 600000) := by
  refine ⟨fun row hmem => lookupCache_syncStore_mem rows cache ttl? now hkeys row hmem,
    ?_, rfl, ?_, ?_, ?_⟩
  · intro t ht hparse
    have ht2 : (t == "") = false := beq_eq_false_iff_ne.mpr ht
    norm_num [syncExpiresAt, ht2, computeExpiresAt, hparse]
  · have hstep : syncExpiresAt (some "7d") now
        = some (now + (7 : Int) * 24 * 60 * 60 * 1000) := rfl
    rw [hstep]
    norm_num
  · have hstep : syncExpiresAt (some "1h") now
        = some (now + (1 : Int) * 60 * 60 * 1000) := rfl
    rw [hstep]
    norm_num
  · have hstep : syncExpiresAt (some "10m") now
        = some (now + (10 : Int) * 60 * 1000) := rfl
    rw [hstep]
    norm_num

/-- Witness for the amended C4 at a concrete input. -/
theorem sync_upserts_rows_with_ttl_expiry_witness :
    ([fetchedRowSample].Pairwise (fun a b => rowKey a ≠ rowKey b)) ∧
    ((∀ row ∈ [fetchedRowSample],
        lookupCache (syncStore [] [fetchedRowSample] (some "7d") 0) row.source row.source_item_id
          = some (toCachedRow row (some "7d") 0)) ∧
     (∀ t, t ≠ "" → parseTtl t = none →
        syncExpiresAt (some t) 0 = some ((0 : Int) + 604800000)) ∧
     syncExpiresAt none 0 = none ∧
     syncExpiresAt (some "7d") 0 = some ((0 : Int) + 604800000) ∧
     syncExpiresAt (some "1h") 0 = some ((0 : Int) + 3600000) ∧
     syncExpiresAt (some "10m") 0 = some ((0 : Int) + 600000)) :=
  ⟨by decide, sync_upserts_rows_with_ttl_expiry [] [fetchedRowSample] (some "7d") 0 (by decide)⟩

/-- C5: a cache-enabled source is served exclusively from the cache with no
connector fetch, even when the cache has no rows for it (the result is then
empty); a cache-disabled source always fetches live, with a 404 when no
connector is registered; the pull operator behaves the same under its
cache-only flag. -/
theorem pull_cache_live_exclusive
    (source : String) (cfg : SourceCfg) (cache : List CachedRow)
    (connectorRows? : Option (List DataRow)) (now : Int) :
    (cfg.cacheEnabled = true →
       acquireRows source cfg cache connectorRows? now
         = .ok (readCacheRows cache source none cfg.boundaryAfter now) 0) ∧
    (cfg.cacheEnabled = true → (∀ c ∈ cache, c.source ≠ source) →
       acquireRows source cfg cache connectorRows? now = .ok [] 0) ∧
    (cfg.cacheEnabled = false →
       (∀ fetched, connectorRows? = some fetched →
          acquireRows source cfg cache connectorRows? now = .ok fetched 1) ∧
       (connectorRows? = none →
          acquireRows source cfg cache connectorRows? now = .notFound)) ∧
    (∀ type?, pullOperatorRows true source type? cfg cache connectorRows? now
       = .ok (readCacheRows cache source type? cfg.boundaryAfter now, 0)) ∧
    (∀ fetched, connectorRows? = some fetched →
       pullOperatorRows false source none cfg cache connectorRows? now = .ok (fetched, 1)) := by
  refine ⟨?_, ?_, ?_, ?_, ?_⟩
  · intro hc
    simp [acquireRows, hc]
  · intro hc hnone
    have hempty := readCacheRows_empty_of_no_source source none cfg.boundaryAfter now cache hnone
    simp [acquireRows, hc, hempty]
  · intro hc
    constructor
    · intro fetched hf
      simp [acquireRows, hc, hf]
    · intro hf
      simp [acquireRows, hc, hf]
  · intro type?
    simp [pullOperatorRows]
  · intro fetched hf
    simp [pullOperatorRows, hf]

/-- Witness for C5 at a concrete input. -/
theorem pull_cache_live_exclusive_witness :
    ((SourceCfg.mk true none).cacheEnabled = true →
       acquireRows "gmail" (SourceCfg.mk true none) [] (some [fetchedRowSample]) 0
         = .ok (readCacheRows [] "gmail" none (SourceCfg.mk true none).boundaryAfter 0) 0) ∧
    ((SourceCfg.mk true none).cacheEnabled = true → (∀ c ∈ ([] : List CachedRow), c.source ≠ "gmail") →
       acquireRows "gmail" (SourceCfg.mk true none) [] (some [fetchedRowSample]) 0 = .ok [] 0) ∧
    ((SourceCfg.mk true none).cacheEnabled = false →
       (∀ fetched, some [fetchedRowSample] = some fetched →
          acquireRows "gmail" (SourceCfg.mk true none) [] (some [fetchedRowSample]) 0
            = .ok fetched 1) ∧
       (some [fetchedRowSample] = none →
          acquireRows "gmail" (SourceCfg.mk true none) [] (some [fetchedRowSample]) 0
            = .notFound)) ∧
    (∀ type?, pullOperatorRows true "gmail" type? (SourceCfg.mk true none) [] (some [fetchedRowSample]) 0
       = .ok (readCacheRows [] "gmail" type? (SourceCfg.mk true none).boundaryAfter 0, 0)) ∧
    (∀ fetched, some [fetchedRowSample] = some fetched →
       pullOperatorRows false "gmail" none (SourceCfg.mk true none) [] (some [fetchedRowSample]) 0
         = .ok (fetched, 1)) :=
  pull_cache_live_exclusive "gmail" (SourceCfg.mk true none) [] (some [fetchedRowSample]) 0

/-- C6: a policy document whose graph declares a stage operator anywhere
but the last position fails validation, and the pipeline returns that
validation error before any operator runs — the outcome is the same error
for every operator interpretation. -/
theorem pipeline_stage_must_be_terminal
    (execOp execOp2 : String → OpDecl → List DataRow → Except String (List DataRow))
    (m : Manifest) (i : Nat) (d : OpDecl)
    (hi : i + 1 < m.graph.length)
    (hd : lookupOp m.operators (m.graph.get ⟨i, Nat.lt_of_succ_lt hi⟩) = some d)
    (hstage : d.type = "stage") :
    ∃ e, validateGraph m.operators m.graph = .error e ∧
      executePipeline execOp m = .error e ∧
      executePipeline execOp2 m = .error e := by
  obtain ⟨e, he⟩ := validateGraph_error_of_misplaced_stage m.operators m.graph i hi d hd hstage
  refine ⟨e, he, ?_, ?_⟩
  · unfold executePipeline
    rw [he]
  · unfold executePipeline
    rw [he]

/-- Witness for C6 at a concrete input. -/
theorem pipeline_stage_must_be_terminal_witness :
    ((0 : Nat) + 1 < mStageSample.graph.length ∧
     lookupOp mStageSample.operators (mStageSample.graph.get ⟨0, by decide⟩)
       = some ⟨"stage", []⟩ ∧
     (⟨"stage", ([] : List (String × String))⟩ : OpDecl).type = "stage") ∧
    (∃ e, validateGraph mStageSample.operators mStageSample.graph = Except.error e ∧
       executePipeline execOpOk mStageSample = Except.error e ∧
       executePipeline execOpFail mStageSample = Except.error e) :=
  ⟨⟨by decide, by decide, rfl⟩,
   pipeline_stage_must_be_terminal execOpOk execOpFail mStageSample 0 ⟨"stage", []⟩
     (by decide) (by decide) rfl⟩

end Peekaboo
